import Mathlib

/-
Verification development for the snake game in src/main.cpp.

The simulation core is embedded shallowly:
- grid coordinates are Int (C++ int), overflow is irrelevant at grid scale;
- the random source (std::mt19937 drawn through distW/distH) is modelled as
  an input stream `rnd : Nat -> Pt` together with a cursor index, so that
  rejection sampling consumes successive candidates;
- wall-clock instants are modelled as Int timestamps where needed (the tick
  scheduler); the fields lastTickTime/tickDuration feed only the renderer's
  alpha computation, which is modelled as a pure function of the elapsed
  time and the tick duration;
- float arithmetic of the interpolation engine is modelled over the exact
  rationals; the interpolated values are grid-cell integers small enough
  that the float operations of the source are exact on them.
-/

namespace Snake

/-- Grid cell coordinate, mirroring `struct Pt { int x, y; }`. -/
structure Pt where
  x : Int
  y : Int
  deriving DecidableEq, Repr

/-- Float point used by the renderer, mirroring `struct FPt { float x, y; }`
with exact rationals in place of float. -/
structure FPt where
  x : ℚ
  y : ℚ
  deriving DecidableEq, Repr

/-- Mirrors `enum Direction { UP, DOWN, LEFT, RIGHT }`. -/
inductive Direction where
  | UP
  | DOWN
  | LEFT
  | RIGHT
  deriving DecidableEq, Repr

/-- Mirrors `enum GameState { MENU, SETTINGS, PLAYING }` (named UIMode here to
avoid clashing with the aggregate state record). -/
inductive UIMode where
  | MENU
  | SETTINGS
  | PLAYING
  deriving DecidableEq, Repr

/-- The opposite of a direction (UP-DOWN, LEFT-RIGHT pairs of the spec). -/
def oppositeDir : Direction → Direction
  | .UP => .DOWN
  | .DOWN => .UP
  | .LEFT => .RIGHT
  | .RIGHT => .LEFT

/-- Symbolic key events; W/S/A/D share the arrow-key cases and VK_SPACE shares
the VK_RETURN case, exactly as in the `WndProc` switch statements. -/
inductive Key where
  | KUp
  | KDown
  | KLeft
  | KRight
  | KReturn
  | KEscape
  | KR
  deriving DecidableEq, Repr

/-- The shared mutable state of src/main.cpp: the applied config
(CELL, GRID_W, GRID_H, TICK_INTERVAL_MS_VALUE, TARGET_FPS), the settings
values, the UI selections, and the simulation fields. -/
structure GameState where
  ui : UIMode
  menuSelection : Int
  pauseSelection : Int
  gameOverSelection : Int
  settingSelection : Int
  fpsIndex : Int
  speedIndex : Int
  cellSize : Int
  gridWidth : Int
  gridHeight : Int
  fruitCount : Int
  cell : Int
  w : Int
  h : Int
  tickMs : Int
  fps : Int
  currSnake : List Pt
  prevSnake : List Pt
  food : List Pt
  dir : Direction
  nextDir : Direction
  gameOver : Bool
  gameWon : Bool
  paused : Bool
  started : Bool
  score : Int
  deriving Repr

/-- Mirrors `static int fpsOptions[] = { 60, 120, 180, 240 }`. -/
def fpsOptions (i : Int) : Int :=
  if i = 0 then 60 else if i = 1 then 120 else if i = 2 then 180 else 240

/-- Mirrors `static int speedOptions[] = { 180, 120, 80 }`. -/
def speedOptions (i : Int) : Int :=
  if i = 0 then 180 else if i = 1 then 120 else 80

/-- The initial values of the C++ globals (before `wWinMain` runs the initial
reset). -/
def initState : GameState where
  ui := .MENU
  menuSelection := 0
  pauseSelection := 0
  gameOverSelection := 0
  settingSelection := 0
  fpsIndex := 3
  speedIndex := 1
  cellSize := 80
  gridWidth := 10
  gridHeight := 10
  fruitCount := 1
  cell := 80
  w := 10
  h := 10
  tickMs := 120
  fps := 240
  currSnake := []
  prevSnake := []
  food := []
  dir := .RIGHT
  nextDir := .RIGHT
  gameOver := false
  gameWon := false
  paused := false
  started := false
  score := 0

/-- Mirrors `moveHead`: move one cell along a direction. -/
def moveHead (p : Pt) (d : Direction) : Pt :=
  match d with
  | .UP => { p with y := p.y - 1 }
  | .DOWN => { p with y := p.y + 1 }
  | .LEFT => { p with x := p.x - 1 }
  | .RIGHT => { p with x := p.x + 1 }

/-- The membership test the C++ loops perform: scan a list for an element with
equal x and y coordinates. -/
def occupied (p : Pt) (l : List Pt) : Bool :=
  l.any fun q => q.x == p.x && q.y == p.y

theorem occupied_iff (p : Pt) (l : List Pt) : occupied p l = true ↔ p ∈ l := by
  unfold occupied
  rw [List.any_eq_true]
  constructor
  · rintro ⟨q, hq, hb⟩
    rw [Bool.and_eq_true, beq_iff_eq, beq_iff_eq] at hb
    have hqp : q = p := by
      obtain ⟨hx, hy⟩ := hb
      cases p
      cases q
      simp_all
    exact hqp ▸ hq
  · intro hp
    exact ⟨p, hp, by simp⟩

theorem occupied_eq_false_iff (p : Pt) (l : List Pt) :
    occupied p l = false ↔ p ∉ l := by
  rw [← occupied_iff]
  cases occupied p l <;> simp

/-- Rejection sampling inner loop shared by `placeFoodLocked` and
`placeOneFoodLocked`: examine up to `fuel` candidates from the stream starting
at cursor `k`, returning the first candidate on neither the snake nor the
existing food, together with the advanced cursor. -/
def placeAttempts (rnd : Nat → Pt) (snake food : List Pt) :
    Nat → Nat → Option Pt × Nat
  | k, 0 => (none, k)
  | k, fuel + 1 =>
    let p := rnd k
    if occupied p snake || occupied p food then
      placeAttempts rnd snake food (k + 1) fuel
    else
      (some p, k + 1)

/-- Mirrors `placeOneFoodLocked`: try up to 1000 candidates; on success append
the found cell to the food list, on failure leave the food list unchanged. -/
def placeOneFood (rnd : Nat → Pt) (snake food : List Pt) (k : Nat) :
    List Pt × Nat :=
  match placeAttempts rnd snake food k 1000 with
  | (some p, k') => (food ++ [p], k')
  | (none, k') => (food, k')

/-- The item-count loop of `placeFoodLocked`: run the single-item placement
`n` times, accumulating into `food`. -/
def placeItems (rnd : Nat → Pt) (snake : List Pt) :
    Nat → List Pt → Nat → List Pt × Nat
  | 0, food, k => (food, k)
  | n + 1, food, k =>
    let r := placeOneFood rnd snake food k
    placeItems rnd snake n r.1 r.2

/-- Mirrors `placeFoodLocked`: clear the food list, then place
`min(fruitCount, GRID_W*GRID_H - currSnake.size())` items. -/
def placeFood (rnd : Nat → Pt) (fruitCount w h : Int) (snake : List Pt)
    (k : Nat) : List Pt × Nat :=
  placeItems rnd snake (min fruitCount (w * h - (snake.length : Int))).toNat [] k

/-- Mirrors `resetGameLocked`: apply the settings to the live config, respawn
a 3-cell snake at the grid centre, reset directions and flags, and run bulk
food placement. (The `resizeWindow` call and the clock fields it resets are
outside the model.) -/
def resetGame (rnd : Nat → Pt) (s : GameState) (k : Nat) : GameState × Nat :=
  let w := s.gridWidth
  let h := s.gridHeight
  let sx := w / 2
  let sy := h / 2
  let snake : List Pt := [⟨sx, sy⟩, ⟨sx - 1, sy⟩, ⟨sx - 2, sy⟩]
  let r := placeFood rnd s.fruitCount w h snake k
  ({ s with
      cell := s.cellSize
      w := w
      h := h
      tickMs := speedOptions s.speedIndex
      fps := fpsOptions s.fpsIndex
      currSnake := snake
      prevSnake := snake
      dir := .RIGHT
      nextDir := .RIGHT
      gameOver := false
      gameWon := false
      paused := false
      started := false
      score := 0
      food := r.1 }, r.2)

/-- The new head a simulation step will compute: the front of `currSnake`
moved along the direction the step commits (`dir = nextDir` precedes the
`moveHead` call in the source). -/
def newHeadOf (s : GameState) : Pt :=
  moveHead (s.currSnake.headD ⟨0, 0⟩) s.nextDir

/-- The out-of-bounds test of the step, in source order. -/
def outOfBounds (s : GameState) (p : Pt) : Bool :=
  decide (p.x < 0) || decide (s.w ≤ p.x) || decide (p.y < 0) || decide (s.h ≤ p.y)

/-- The collision test of the step: out-of-bounds first, then overlap with any
existing snake cell. -/
def collidedOf (s : GameState) : Bool :=
  outOfBounds s (newHeadOf s) || occupied (newHeadOf s) s.currSnake

/-- One simulation step, mirroring the tick body of `gameThreadFunc`
(lines 253-311): commit the queued direction, compute and collision-test the
new head, roll the generation (`prevSnake = currSnake`), then either flag game
over, or advance: push the new head, and on a food hit erase that food item,
add 10 to the score, and either flag the win (snake fills the grid) or place
one replacement food; otherwise pop the tail. -/
def stepGame (rnd : Nat → Pt) (s : GameState) (k : Nat) : GameState × Nat :=
  let d := s.nextDir
  let newHead := newHeadOf s
  let s1 := { s with dir := d, prevSnake := s.currSnake }
  if collidedOf s then
    ({ s1 with gameOver := true }, k)
  else
    let snake1 := newHead :: s.currSnake
    if occupied newHead s.food then
      let food1 := s.food.erase newHead
      if (snake1.length : Int) ≥ s.w * s.h then
        ({ s1 with currSnake := snake1, food := food1, score := s.score + 10,
                   gameWon := true }, k)
      else
        let r := placeOneFood rnd snake1 food1 k
        ({ s1 with currSnake := snake1, food := r.1, score := s.score + 10 }, r.2)
    else
      ({ s1 with currSnake := snake1.dropLast }, k)

/-- Menu-mode key handling of `WndProc` (the PostMessage call of the Exit
path touches no shared state and is omitted). -/
def handleMenuKey (rnd : Nat → Pt) (key : Key) (s : GameState) (k : Nat) :
    GameState × Nat :=
  match key with
  | .KUp => ({ s with menuSelection := (s.menuSelection - 1 + 3) % 3 }, k)
  | .KDown => ({ s with menuSelection := (s.menuSelection + 1) % 3 }, k)
  | .KReturn =>
    if s.menuSelection = 0 then
      resetGame rnd { s with ui := .PLAYING } k
    else if s.menuSelection = 1 then
      ({ s with ui := .SETTINGS, settingSelection := 0 }, k)
    else
      (s, k)
  | _ => (s, k)

/-- Settings-mode key handling of `WndProc`: navigation and clamped value
adjustment. -/
def handleSettingsKey (key : Key) (s : GameState) (k : Nat) :
    GameState × Nat :=
  match key with
  | .KUp => ({ s with settingSelection := (s.settingSelection - 1 + 7) % 7 }, k)
  | .KDown => ({ s with settingSelection := (s.settingSelection + 1) % 7 }, k)
  | .KLeft =>
    (if s.settingSelection = 0 then { s with fpsIndex := (s.fpsIndex - 1 + 4) % 4 }
     else if s.settingSelection = 1 then { s with cellSize := max 60 (s.cellSize - 5) }
     else if s.settingSelection = 2 then { s with gridWidth := max 5 (s.gridWidth - 1) }
     else if s.settingSelection = 3 then { s with gridHeight := max 5 (s.gridHeight - 1) }
     else if s.settingSelection = 4 then { s with speedIndex := (s.speedIndex - 1 + 3) % 3 }
     else if s.settingSelection = 5 then { s with fruitCount := max 1 (s.fruitCount - 1) }
     else s, k)
  | .KRight =>
    (if s.settingSelection = 0 then { s with fpsIndex := (s.fpsIndex + 1) % 4 }
     else if s.settingSelection = 1 then { s with cellSize := min 120 (s.cellSize + 5) }
     else if s.settingSelection = 2 then { s with gridWidth := min 40 (s.gridWidth + 1) }
     else if s.settingSelection = 3 then { s with gridHeight := min 40 (s.gridHeight + 1) }
     else if s.settingSelection = 4 then { s with speedIndex := (s.speedIndex + 1) % 3 }
     else if s.settingSelection = 5 then { s with fruitCount := min 15 (s.fruitCount + 1) }
     else s, k)
  | .KReturn =>
    if s.settingSelection = 6 then ({ s with ui := .MENU, menuSelection := 0 }, k)
    else (s, k)
  | .KEscape => ({ s with ui := .MENU, menuSelection := 0 }, k)
  | .KR => (s, k)

/-- Pause-menu key handling of `WndProc`. -/
def handlePauseKey (key : Key) (s : GameState) (k : Nat) : GameState × Nat :=
  match key with
  | .KUp => ({ s with pauseSelection := (s.pauseSelection - 1 + 2) % 2 }, k)
  | .KDown => ({ s with pauseSelection := (s.pauseSelection + 1) % 2 }, k)
  | .KReturn =>
    if s.pauseSelection = 0 then ({ s with paused := false }, k)
    else ({ s with ui := .MENU, menuSelection := 0, pauseSelection := 0 }, k)
  | .KEscape =>
    if s.pauseSelection = 0 then ({ s with paused := false }, k)
    else ({ s with ui := .MENU, menuSelection := 0, pauseSelection := 0 }, k)
  | _ => (s, k)

/-- Game-over menu key handling of `WndProc`; the win menu runs the identical
code on the same selection variable. -/
def handleGameOverKey (rnd : Nat → Pt) (key : Key) (s : GameState) (k : Nat) :
    GameState × Nat :=
  match key with
  | .KUp => ({ s with gameOverSelection := (s.gameOverSelection - 1 + 2) % 2 }, k)
  | .KDown => ({ s with gameOverSelection := (s.gameOverSelection + 1) % 2 }, k)
  | .KReturn =>
    if s.gameOverSelection = 0 then
      let r := resetGame rnd s k
      ({ r.1 with gameOverSelection := 0 }, r.2)
    else ({ s with ui := .MENU, menuSelection := 0, gameOverSelection := 0 }, k)
  | .KEscape =>
    if s.gameOverSelection = 0 then
      let r := resetGame rnd s k
      ({ r.1 with gameOverSelection := 0 }, r.2)
    else ({ s with ui := .MENU, menuSelection := 0, gameOverSelection := 0 }, k)
  | _ => (s, k)

/-- Normal in-game key handling of `WndProc`: escape pauses once started, a
direction key starts the game and queues `nextDir` under the reversal guard,
R resets. -/
def handlePlayKey (rnd : Nat → Pt) (key : Key) (s : GameState) (k : Nat) :
    GameState × Nat :=
  match key with
  | .KEscape =>
    if s.started then ({ s with paused := true, pauseSelection := 0 }, k)
    else (s, k)
  | .KUp =>
    let s1 := if s.started then s else { s with started := true }
    (if s1.dir ≠ .DOWN then { s1 with nextDir := .UP } else s1, k)
  | .KDown =>
    let s1 := if s.started then s else { s with started := true }
    (if s1.dir ≠ .UP then { s1 with nextDir := .DOWN } else s1, k)
  | .KLeft =>
    let s1 := if s.started then s else { s with started := true }
    (if s1.dir ≠ .RIGHT then { s1 with nextDir := .LEFT } else s1, k)
  | .KRight =>
    let s1 := if s.started then s else { s with started := true }
    (if s1.dir ≠ .LEFT then { s1 with nextDir := .RIGHT } else s1, k)
  | .KReturn => (s, k)
  | .KR => resetGame rnd s k

/-- The WM_KEYDOWN dispatch of `WndProc`: first on `gameState`, then inside
PLAYING on `paused` / `gameOver` / `gameWon`, then the normal game
controls. -/
def handleKeyDown (rnd : Nat → Pt) (key : Key) (s : GameState) (k : Nat) :
    GameState × Nat :=
  if s.ui = UIMode.MENU then handleMenuKey rnd key s k
  else if s.ui = UIMode.SETTINGS then handleSettingsKey key s k
  else if s.paused then handlePauseKey key s k
  else if s.gameOver then handleGameOverKey rnd key s k
  else if s.gameWon then handleGameOverKey rnd key s k
  else handlePlayKey rnd key s k

/-- The key event a direction request arrives as. -/
def dirKey : Direction → Key
  | .UP => .KUp
  | .DOWN => .KDown
  | .LEFT => .KLeft
  | .RIGHT => .KRight

/-- The Ticking condition of the scheduler:
`started && !paused && !gameOver && !gameWon`. -/
def tickActive (s : GameState) : Bool :=
  s.started && !s.paused && !s.gameOver && !s.gameWon

/-- State carried across passes of `gameThreadFunc`: the shared game state,
the next-tick target time, and the random stream cursor. -/
structure SchedState where
  game : GameState
  nextTick : Int
  rngIdx : Nat

/-- The effect of one `gameThreadFunc` loop pass on the next-tick target,
abstracted over the activity flag: while inactive the target is re-anchored to
`now + T`; while active the target only ever advances by `+= T`, and exactly
when `now >= target` a tick fires (second component). -/
def tickTarget (T now target : Int) (active : Bool) : Int × Bool :=
  match active with
  | true => if target ≤ now then (target + T, true) else (target, false)
  | false => (now + T, false)

/-- One full pass of the `gameThreadFunc` loop at clock reading `now`: when
inactive, re-anchor the target and copy `currSnake` into `prevSnake`; when
active and due, advance the target by `T` and run the simulation step. -/
def schedPass (T : Int) (rnd : Nat → Pt) (now : Int) (st : SchedState) :
    SchedState :=
  let active := tickActive st.game
  let st1 :=
    if active then st
    else { st with
            nextTick := now + T
            game := { st.game with prevSnake := st.game.currSnake } }
  if active && decide (st1.nextTick ≤ now) then
    let r := stepGame rnd st1.game st1.rngIdx
    { game := r.1, nextTick := st1.nextTick + T, rngIdx := r.2 }
  else
    st1

/-- Iterate `tickTarget` over a list of passes (clock reading and activity per
pass), returning the final target and the list of target times at which ticks
fired, in order. -/
def schedRun (T : Int) : List (Int × Bool) → Int → Int × List Int
  | [], t => (t, [])
  | p :: rest, t =>
    let u := tickTarget T p.1 t p.2
    let r := schedRun T rest u.1
    (r.1, if u.2 then t :: r.2 else r.2)

/-- Mirrors `lerp`: per-field linear interpolation. -/
def lerp (a b : FPt) (t : ℚ) : FPt :=
  ⟨a.x + (b.x - a.x) * t, a.y + (b.y - a.y) * t⟩

/-- Mirrors `std::clamp(a, 0.0f, 1.0f)` (the arguments are never NaN here). -/
def clamp01 (a : ℚ) : ℚ :=
  max 0 (min 1 a)

/-- The interpolation factor of `renderThreadFunc`: elapsed time since the
snapshot tick timestamp divided by the snapshot tick duration, clamped to
[0,1]. -/
def alphaOf (elapsed dur : ℚ) : ℚ :=
  clamp01 (elapsed / dur)

/-- The rendered position of segment `i`, mirroring the interpolation loop of
`renderThreadFunc`: the start point is `prev[i]` when present and `curr[i]`
otherwise, the end point is `curr[i]`. -/
def renderPos (pre cur : List FPt) (alpha : ℚ) (i : Nat) : FPt :=
  let a := if i < pre.length then pre.getD i ⟨0, 0⟩ else cur.getD i ⟨0, 0⟩
  let b := cur.getD i ⟨0, 0⟩
  lerp a b alpha

/-- A random stream whose every candidate is the origin cell. -/
def rndZero : Nat → Pt := fun _ => ⟨0, 0⟩

/-- A random stream walking along the bottom row: candidate j is cell (j, 0). -/
def rndRow : Nat → Pt := fun j => ⟨(j : Int), 0⟩

/-- A mid-game playing state on the 10x10 grid: snake [(5,5),(4,5),(3,5)]
moving RIGHT, food away from the head path. -/
def sampleState : GameState :=
  { initState with
      ui := .PLAYING
      currSnake := [⟨5, 5⟩, ⟨4, 5⟩, ⟨3, 5⟩]
      prevSnake := [⟨5, 5⟩, ⟨4, 5⟩, ⟨3, 5⟩]
      food := [⟨0, 0⟩]
      started := true }

/-- Same position but with food directly ahead at (6,5). -/
def eatState : GameState :=
  { sampleState with food := [⟨6, 5⟩] }

/-- Same position but with the queued direction reversed relative to the
active direction (a state the input handler never produces). -/
def revState : GameState :=
  { sampleState with nextDir := .LEFT }

/-
Helper lemmas about the simulation step.
-/

theorem stepGame_prevSnake (rnd : Nat → Pt) (s : GameState) (k : Nat) :
    (stepGame rnd s k).1.prevSnake = s.currSnake := by
  simp only [stepGame]
  split
  · rfl
  · split
    · split <;> rfl
    · rfl

theorem stepGame_dir (rnd : Nat → Pt) (s : GameState) (k : Nat) :
    (stepGame rnd s k).1.dir = s.nextDir := by
  simp only [stepGame]
  split
  · rfl
  · split
    · split <;> rfl
    · rfl

theorem stepGame_nextDir (rnd : Nat → Pt) (s : GameState) (k : Nat) :
    (stepGame rnd s k).1.nextDir = s.nextDir := by
  simp only [stepGame]
  split
  · rfl
  · split
    · split <;> rfl
    · rfl

theorem stepGame_eq_collide (rnd : Nat → Pt) (s : GameState) (k : Nat)
    (hc : collidedOf s = true) :
    stepGame rnd s k =
      ({ s with dir := s.nextDir, prevSnake := s.currSnake, gameOver := true },
       k) := by
  simp only [stepGame, hc]
  rw [if_pos trivial]

theorem stepGame_eq_plain (rnd : Nat → Pt) (s : GameState) (k : Nat)
    (hc : collidedOf s = false)
    (hf : occupied (newHeadOf s) s.food = false) :
    stepGame rnd s k =
      ({ s with
          dir := s.nextDir
          prevSnake := s.currSnake
          currSnake := (newHeadOf s :: s.currSnake).dropLast }, k) := by
  simp only [stepGame, hc, hf]
  rw [if_neg Bool.false_ne_true, if_neg Bool.false_ne_true]

theorem stepGame_eq_eat_win (rnd : Nat → Pt) (s : GameState) (k : Nat)
    (hc : collidedOf s = false)
    (hf : occupied (newHeadOf s) s.food = true)
    (hwin : ((newHeadOf s :: s.currSnake).length : Int) ≥ s.w * s.h) :
    stepGame rnd s k =
      ({ s with
          dir := s.nextDir
          prevSnake := s.currSnake
          currSnake := newHeadOf s :: s.currSnake
          food := s.food.erase (newHeadOf s)
          score := s.score + 10
          gameWon := true }, k) := by
  simp only [stepGame, hc, hf]
  rw [if_neg Bool.false_ne_true, if_pos trivial, if_pos hwin]

theorem stepGame_eq_eat_place (rnd : Nat → Pt) (s : GameState) (k : Nat)
    (hc : collidedOf s = false)
    (hf : occupied (newHeadOf s) s.food = true)
    (hwin : ¬ ((newHeadOf s :: s.currSnake).length : Int) ≥ s.w * s.h) :
    stepGame rnd s k =
      ({ s with
          dir := s.nextDir
          prevSnake := s.currSnake
          currSnake := newHeadOf s :: s.currSnake
          food := (placeOneFood rnd (newHeadOf s :: s.currSnake)
                    (s.food.erase (newHeadOf s)) k).1
          score := s.score + 10 },
        (placeOneFood rnd (newHeadOf s :: s.currSnake)
          (s.food.erase (newHeadOf s)) k).2) := by
  simp only [stepGame, hc, hf]
  rw [if_neg Bool.false_ne_true, if_pos trivial, if_neg hwin]

/-- C2: on every simulation step the new head is collision-tested
(out-of-bounds against the configured grid, then overlap with any existing
snake cell); a failing test sets gameOver and terminates the step with the
snake, food and score unchanged; and in every step, colliding or not,
`previous` receives a copy of the pre-step `current` (the generation roll),
which is the only write to it. -/
theorem step_collision_and_generation_roll :
    (∀ (rnd : Nat → Pt) (s : GameState) (k : Nat),
      (stepGame rnd s k).1.prevSnake = s.currSnake) ∧
    (∀ (s : GameState),
      collidedOf s =
        (outOfBounds s (newHeadOf s) || occupied (newHeadOf s) s.currSnake)) ∧
    (∀ (rnd : Nat → Pt) (s : GameState) (k : Nat), collidedOf s = true →
      (stepGame rnd s k).1.currSnake = s.currSnake ∧
      (stepGame rnd s k).1.gameOver = true ∧
      (stepGame rnd s k).1.food = s.food ∧
      (stepGame rnd s k).1.score = s.score) := by
  refine ⟨stepGame_prevSnake, fun s => rfl, ?_⟩
  intro rnd s k hc
  rw [stepGame_eq_collide rnd s k hc]
  exact ⟨rfl, rfl, rfl, rfl⟩

/-- C2 witness: the reversal state runs into its own body, and the colliding
step leaves the snake unchanged while flagging game over. -/
theorem step_collision_witness :
    (stepGame rndZero revState 0).1.currSnake = revState.currSnake ∧
    (stepGame rndZero revState 0).1.gameOver = true :=
  ⟨(step_collision_and_generation_roll.2.2 rndZero revState 0 (by decide)).1,
   (step_collision_and_generation_roll.2.2 rndZero revState 0 (by decide)).2.1⟩

/-- C3: a non-colliding step with no food at the new head prepends exactly the
new head and removes exactly the old tail, leaving the length invariant; on
the 10x10 grid with snake [(5,5),(4,5),(3,5)] moving RIGHT and no food at
(6,5), one step yields [(6,5),(5,5),(4,5)]. -/
theorem step_plain_move (rnd : Nat → Pt) (s : GameState) (k : Nat)
    (hne : s.currSnake ≠ [])
    (hc : collidedOf s = false)
    (hf : occupied (newHeadOf s) s.food = false) :
    (stepGame rnd s k).1.currSnake = newHeadOf s :: s.currSnake.dropLast ∧
    (stepGame rnd s k).1.currSnake.length = s.currSnake.length ∧
    (stepGame rndZero sampleState 0).1.currSnake =
      [⟨6, 5⟩, ⟨5, 5⟩, ⟨4, 5⟩] := by
  have hcurr : (stepGame rnd s k).1.currSnake =
      (newHeadOf s :: s.currSnake).dropLast := by
    rw [stepGame_eq_plain rnd s k hc hf]
  rw [List.dropLast_cons_of_ne_nil hne] at hcurr
  refine ⟨hcurr, ?_, by decide⟩
  rw [hcurr]
  have hpos : 0 < s.currSnake.length := List.length_pos.mpr hne
  simp only [List.length_cons, List.length_dropLast]
  omega

/-- C3 witness: the scenario state satisfies the hypotheses and moves to
[(6,5),(5,5),(4,5)]. -/
theorem step_plain_move_witness :
    (stepGame rndZero sampleState 0).1.currSnake =
      newHeadOf sampleState :: sampleState.currSnake.dropLast :=
  (step_plain_move rndZero sampleState 0 (by decide) (by decide) (by decide)).1

/-- C4: a non-colliding step onto a food cell removes that food item, adds 10
to the score, and keeps the tail so the length grows by one; then, if the
grown snake fills the grid exactly, the win flag is set (and no food is
placed), otherwise one replacement placement runs on the remaining food. The
cap hypothesis (snake fits in the grid) is the standing invariant of a live
game. -/
theorem step_growth (rnd : Nat → Pt) (s : GameState) (k : Nat)
    (hc : collidedOf s = false)
    (hf : occupied (newHeadOf s) s.food = true)
    (hcap : (s.currSnake.length : Int) + 1 ≤ s.w * s.h) :
    (stepGame rnd s k).1.score = s.score + 10 ∧
    (stepGame rnd s k).1.currSnake = newHeadOf s :: s.currSnake ∧
    (stepGame rnd s k).1.currSnake.length = s.currSnake.length + 1 ∧
    ((s.currSnake.length : Int) + 1 = s.w * s.h →
      (stepGame rnd s k).1.gameWon = true ∧
      (stepGame rnd s k).1.food = s.food.erase (newHeadOf s)) ∧
    ((s.currSnake.length : Int) + 1 ≠ s.w * s.h →
      (stepGame rnd s k).1.gameWon = s.gameWon ∧
      (stepGame rnd s k).1.food =
        (placeOneFood rnd (newHeadOf s :: s.currSnake)
          (s.food.erase (newHeadOf s)) k).1) := by
  have hlen : ((newHeadOf s :: s.currSnake).length : Int) =
      (s.currSnake.length : Int) + 1 := by
    simp
  by_cases hwin : ((newHeadOf s :: s.currSnake).length : Int) ≥ s.w * s.h
  · have heq : (s.currSnake.length : Int) + 1 = s.w * s.h :=
      le_antisymm hcap (hlen ▸ hwin)
    rw [stepGame_eq_eat_win rnd s k hc hf hwin]
    exact ⟨rfl, rfl, rfl, fun _ => ⟨rfl, rfl⟩, fun hne => absurd heq hne⟩
  · have hne : (s.currSnake.length : Int) + 1 ≠ s.w * s.h := by
      intro h
      exact hwin (by rw [hlen, h])
    rw [stepGame_eq_eat_place rnd s k hc hf hwin]
    exact ⟨rfl, rfl, rfl, fun heq => absurd heq hne, fun _ => ⟨rfl, rfl⟩⟩

/-- C4 witness: eating the food at (6,5) on the scenario state adds 10 to the
score. -/
theorem step_growth_witness :
    (stepGame rndZero eatState 0).1.score = eatState.score + 10 :=
  (step_growth rndZero eatState 0 (by decide) (by decide) (by decide)).1

/-- C5 counterexample: the claim asserts a second reversal guard inside the
step, but the step commits `nextDir` into `dir` unconditionally; from a state
whose queued direction is the reverse of the active one, the step changes the
active direction. -/
theorem step_reversal_guard_counterexample :
    revState.nextDir = oppositeDir revState.dir ∧
    (stepGame rndZero revState 0).1.dir ≠ revState.dir := by
  decide

/-- C5 amended: the step commits the pending direction into the active
direction unconditionally (`dir = nextDir` with no guard); reversal rejection
happens only at request time in the input handler. -/
theorem step_commits_pending_direction (rnd : Nat → Pt) (s : GameState)
    (k : Nat) :
    (stepGame rnd s k).1.dir = s.nextDir ∧
    (stepGame rnd s k).1.nextDir = s.nextDir :=
  ⟨stepGame_dir rnd s k, stepGame_nextDir rnd s k⟩

/-- C6: a direction key handled while playing (not paused, not over, not won)
always sets `started`, leaves the active direction alone, and updates the
pending direction exactly when the request is not the reverse of the active
direction. -/
theorem input_direction_handling (rnd : Nat → Pt) (d : Direction)
    (s : GameState) (k : Nat)
    (hui : s.ui = .PLAYING) (hp : s.paused = false) (hg : s.gameOver = false)
    (hw : s.gameWon = false) :
    (handleKeyDown rnd (dirKey d) s k).1.started = true ∧
    (handleKeyDown rnd (dirKey d) s k).1.nextDir =
      (if d = oppositeDir s.dir then s.nextDir else d) ∧
    (handleKeyDown rnd (dirKey d) s k).1.dir = s.dir := by
  cases d <;> cases hdir : s.dir <;> cases hst : s.started <;>
    simp_all [handleKeyDown, handlePlayKey, dirKey, oppositeDir]

/-- C6 witness: an UP request on the scenario state (moving RIGHT) is
committed into the pending direction. -/
theorem input_direction_handling_witness :
    (handleKeyDown rndZero (dirKey .UP) sampleState 0).1.nextDir =
      (if Direction.UP = oppositeDir sampleState.dir then sampleState.nextDir
       else Direction.UP) :=
  (input_direction_handling rndZero .UP sampleState 0 rfl rfl rfl rfl).2.1

/-
The tick scheduler (C1).
-/

theorem schedRun_active_spec (T : Int) (nows : List Int) :
    ∀ t0 : Int,
      (schedRun T (nows.map fun n => (n, true)) t0).1 =
        t0 + ((schedRun T (nows.map fun n => (n, true)) t0).2.length : Int) * T ∧
      (schedRun T (nows.map fun n => (n, true)) t0).2 =
        (List.range (schedRun T (nows.map fun n => (n, true)) t0).2.length).map
          (fun j : Nat => t0 + (j : Int) * T) := by
  induction nows with
  | nil =>
    intro t0
    simp [schedRun]
  | cons now rest ih =>
    intro t0
    by_cases hle : t0 ≤ now
    · obtain ⟨ih1, ih2⟩ := ih (t0 + T)
      simp only [List.map_cons, schedRun, tickTarget, if_pos hle, if_true]
      constructor
      · rw [ih1, List.length_cons]
        push_cast
        ring
      · rw [List.length_cons, List.range_succ_eq_map, List.map_cons,
          List.map_map]
        congr 1
        · simp
        · rw [ih2, List.length_map, List.length_range]
          apply List.map_congr_left
          intro j hj
          simp only [Function.comp_apply]
          push_cast
          ring
    · obtain ⟨ih1, ih2⟩ := ih t0
      simp only [List.map_cons, schedRun, tickTarget, if_neg hle]
      exact ⟨ih1, ih2⟩

/-- C1: drift-free scheduling. Over any all-active run, the fired tick
targets are exactly t0, t0+T, t0+2T, ... (repeated addition, never
re-anchored), and the final target is t0 plus the tick count times T; the
per-pass target update of `gameThreadFunc` is `tickTarget`, and on every
inactive pass the target is reset to now + T (so at most the single tick a
pass can fire happens on resume). -/
theorem drift_free_scheduling :
    (∀ (T t0 : Int) (nows : List Int),
      (schedRun T (nows.map fun n => (n, true)) t0).2 =
        (List.range (schedRun T (nows.map fun n => (n, true)) t0).2.length).map
          (fun j : Nat => t0 + (j : Int) * T) ∧
      (schedRun T (nows.map fun n => (n, true)) t0).1 =
        t0 + ((schedRun T (nows.map fun n => (n, true)) t0).2.length : Int) * T) ∧
    (∀ (T : Int) (rnd : Nat → Pt) (now : Int) (st : SchedState),
      (schedPass T rnd now st).nextTick =
        (tickTarget T now st.nextTick (tickActive st.game)).1) ∧
    (∀ (T : Int) (rnd : Nat → Pt) (now : Int) (st : SchedState),
      tickActive st.game = false →
        (schedPass T rnd now st).nextTick = now + T) := by
  refine ⟨?_, ?_, ?_⟩
  · intro T t0 nows
    obtain ⟨h1, h2⟩ := schedRun_active_spec T nows t0
    exact ⟨h2, h1⟩
  · intro T rnd now st
    by_cases ha : tickActive st.game
    · by_cases hle : st.nextTick ≤ now
      · simp [schedPass, tickTarget, ha, hle]
      · simp [schedPass, tickTarget, ha, hle]
    · simp [schedPass, tickTarget, Bool.of_not_eq_true ha]
  · intro T rnd now st ha
    simp [schedPass, tickTarget, ha]

/-- C1 witness: an inactive pass (fresh boot state, game not started)
re-anchors the next-tick target to now + T. -/
theorem drift_free_scheduling_witness :
    (schedPass 120 rndZero 500 ⟨initState, 77, 0⟩).nextTick = 500 + 120 :=
  drift_free_scheduling.2.2 120 rndZero 500 ⟨initState, 77, 0⟩ rfl

/-
The interpolation engine (C7).
-/

theorem lerp_zero (a b : FPt) : lerp a b 0 = a := by
  cases a
  simp [lerp]

theorem lerp_one (a b : FPt) : lerp a b 1 = b := by
  cases a
  cases b
  simp only [lerp, FPt.mk.injEq, mul_one]
  constructor <;> ring

theorem lerp_self (a : FPt) (t : ℚ) : lerp a a t = a := by
  cases a
  simp [lerp]

/-- C7: the interpolation factor is clamped to [0,1] for every elapsed time
and tick duration; for a segment index present in both generations, alpha=0
reproduces the previous position exactly and alpha=1 the current position
exactly; and an index present only in `current` (a just-grown segment)
renders as the current element unmodified, for every alpha. -/
theorem interpolation_bounds :
    (∀ elapsed dur : ℚ, 0 ≤ alphaOf elapsed dur ∧ alphaOf elapsed dur ≤ 1) ∧
    (∀ (pre cur : List FPt) (i : Nat), i < pre.length →
      renderPos pre cur 0 i = pre.getD i ⟨0, 0⟩ ∧
      renderPos pre cur 1 i = cur.getD i ⟨0, 0⟩) ∧
    (∀ (pre cur : List FPt) (alpha : ℚ) (i : Nat), pre.length ≤ i →
      renderPos pre cur alpha i = cur.getD i ⟨0, 0⟩) := by
  refine ⟨?_, ?_, ?_⟩
  · intro elapsed dur
    unfold alphaOf clamp01
    constructor
    · exact le_max_left 0 _
    · exact max_le zero_le_one (min_le_left 1 _)
  · intro pre cur i hi
    unfold renderPos
    rw [if_pos hi]
    exact ⟨lerp_zero _ _, lerp_one _ _⟩
  · intro pre cur alpha i hi
    unfold renderPos
    rw [if_neg (not_lt.mpr hi)]
    exact lerp_self _ _

/-- C7 witness: with both generations holding one segment, alpha = 1 renders
the current position exactly. -/
theorem interpolation_bounds_witness :
    renderPos [⟨5, 5⟩] [⟨6, 5⟩] 1 0 = ([⟨6, 5⟩] : List FPt).getD 0 ⟨0, 0⟩ :=
  (interpolation_bounds.2.1 [⟨5, 5⟩] [⟨6, 5⟩] 0 (by decide)).2

/-
Food placement (C8, C9).
-/

theorem placeAttempts_mem (rnd : Nat → Pt) (snake food : List Pt) :
    ∀ (fuel k : Nat) (p : Pt) (k2 : Nat),
      placeAttempts rnd snake food k fuel = (some p, k2) →
      p ∉ snake ∧ p ∉ food := by
  intro fuel
  induction fuel with
  | zero =>
    intro k p k2 h
    simp [placeAttempts] at h
  | succ m ih =>
    intro k p k2 h
    simp only [placeAttempts] at h
    by_cases hc : (occupied (rnd k) snake || occupied (rnd k) food) = true
    · rw [if_pos hc] at h
      exact ih (k + 1) p k2 h
    · rw [if_neg hc] at h
      have hp : rnd k = p := by
        have := congrArg Prod.fst h
        simpa using this
      rw [Bool.or_eq_true] at hc
      push_neg at hc
      refine ⟨fun hm => hc.1 ?_, fun hm => hc.2 ?_⟩
      · exact (occupied_iff _ _).mpr (hp ▸ hm)
      · exact (occupied_iff _ _).mpr (hp ▸ hm)

theorem placeOneFood_disjoint (rnd : Nat → Pt) (snake food : List Pt)
    (k : Nat) (hdisj : ∀ p ∈ food, p ∉ snake) (hnd : food.Nodup) :
    (∀ p ∈ (placeOneFood rnd snake food k).1, p ∉ snake) ∧
    (placeOneFood rnd snake food k).1.Nodup := by
  rcases hpa : placeAttempts rnd snake food k 1000 with ⟨op, k2⟩
  cases op with
  | none =>
    simp only [placeOneFood, hpa]
    exact ⟨hdisj, hnd⟩
  | some p =>
    obtain ⟨hps, hpf⟩ := placeAttempts_mem rnd snake food 1000 k p k2 hpa
    simp only [placeOneFood, hpa]
    constructor
    · intro q hq
      rcases List.mem_append.mp hq with hq | hq
      · exact hdisj q hq
      · rw [List.mem_singleton] at hq
        exact hq ▸ hps
    · rw [List.nodup_append]
      exact ⟨hnd, List.nodup_singleton p,
        fun a haf hap => hpf ((List.mem_singleton.mp hap) ▸ haf)⟩

theorem placeItems_disjoint (rnd : Nat → Pt) (snake : List Pt) :
    ∀ (n : Nat) (food : List Pt) (k : Nat),
      (∀ p ∈ food, p ∉ snake) → food.Nodup →
      (∀ p ∈ (placeItems rnd snake n food k).1, p ∉ snake) ∧
      (placeItems rnd snake n food k).1.Nodup := by
  intro n
  induction n with
  | zero =>
    intro food k h1 h2
    exact ⟨h1, h2⟩
  | succ m ih =>
    intro food k h1 h2
    have h3 := placeOneFood_disjoint rnd snake food k h1 h2
    simp only [placeItems]
    exact ih _ _ h3.1 h3.2

/-- C8: after bulk placement (used on reset) the food set is disjoint from
the snake and duplicate-free unconditionally (the set is cleared first); after
single placement (used on consumption) the same holds provided it held
beforehand. -/
theorem food_disjointness :
    (∀ (rnd : Nat → Pt) (fc w h : Int) (snake : List Pt) (k : Nat),
      (∀ p ∈ (placeFood rnd fc w h snake k).1, p ∉ snake) ∧
      (placeFood rnd fc w h snake k).1.Nodup) ∧
    (∀ (rnd : Nat → Pt) (snake food : List Pt) (k : Nat),
      (∀ p ∈ food, p ∉ snake) → food.Nodup →
      (∀ p ∈ (placeOneFood rnd snake food k).1, p ∉ snake) ∧
      (placeOneFood rnd snake food k).1.Nodup) := by
  constructor
  · intro rnd fc w h snake k
    exact placeItems_disjoint rnd snake _ [] k (by simp) List.nodup_nil
  · exact placeOneFood_disjoint

/-- C8 witness: placing one item over snake [(0,0)] and food [(1,1)] keeps
the food set duplicate-free. -/
theorem food_disjointness_witness :
    ((placeOneFood rndRow [⟨0, 0⟩] [⟨1, 1⟩] 0).1).Nodup :=
  (food_disjointness.2 rndRow [⟨0, 0⟩] [⟨1, 1⟩] 0 (by decide) (by decide)).2

theorem placeOneFood_length (rnd : Nat → Pt) (snake food : List Pt)
    (k : Nat) :
    (placeOneFood rnd snake food k).1.length ≤ food.length + 1 := by
  rcases hpa : placeAttempts rnd snake food k 1000 with ⟨op, k2⟩
  cases op with
  | none => simp [placeOneFood, hpa]
  | some p => simp [placeOneFood, hpa]

theorem placeItems_length (rnd : Nat → Pt) (snake : List Pt) :
    ∀ (n : Nat) (food : List Pt) (k : Nat),
      (placeItems rnd snake n food k).1.length ≤ food.length + n := by
  intro n
  induction n with
  | zero =>
    intro food k
    simp [placeItems]
  | succ m ih =>
    intro food k
    simp only [placeItems]
    calc (placeItems rnd snake m (placeOneFood rnd snake food k).1
            (placeOneFood rnd snake food k).2).1.length
        ≤ (placeOneFood rnd snake food k).1.length + m := ih _ _
      _ ≤ (food.length + 1) + m := by
          have := placeOneFood_length rnd snake food k
          omega
      _ = food.length + (m + 1) := by omega

theorem placeAttempts_fail (rnd : Nat → Pt) (snake food : List Pt) :
    ∀ (fuel k : Nat),
      (∀ j, j < fuel →
        (occupied (rnd (k + j)) snake || occupied (rnd (k + j)) food) = true) →
      (placeAttempts rnd snake food k fuel).1 = none := by
  intro fuel
  induction fuel with
  | zero =>
    intro k _
    rfl
  | succ m ih =>
    intro k h
    have h0 := h 0 (Nat.succ_pos m)
    rw [Nat.add_zero] at h0
    simp only [placeAttempts, if_pos h0]
    apply ih
    intro j hj
    have hjm := h (j + 1) (Nat.succ_lt_succ hj)
    rwa [show k + (j + 1) = k + 1 + j by omega] at hjm

theorem placeAttempts_cursor (rnd : Nat → Pt) (snake food : List Pt) :
    ∀ (fuel k : Nat), (placeAttempts rnd snake food k fuel).2 ≤ k + fuel := by
  intro fuel
  induction fuel with
  | zero =>
    intro k
    simp [placeAttempts]
  | succ m ih =>
    intro k
    simp only [placeAttempts]
    by_cases hc : (occupied (rnd k) snake || occupied (rnd k) food) = true
    · rw [if_pos hc]
      calc (placeAttempts rnd snake food (k + 1) m).2 ≤ (k + 1) + m := ih (k + 1)
        _ = k + (m + 1) := by omega
    · rw [if_neg hc]
      omega

/-- C9: bulk placement runs the per-item loop exactly
min(fruitCount, cells - snake length) times, so the food set never exceeds
that count (and reaches it when sampling succeeds, as the closed run shows);
each item examines at most 1000 candidates (the cursor advances by at most
1000); and when every candidate in the window is occupied the item is simply
skipped, leaving the food set unchanged instead of blocking or failing. -/
theorem placement_attempt_cap :
    (∀ (rnd : Nat → Pt) (fc w h : Int) (snake : List Pt) (k : Nat),
      (placeFood rnd fc w h snake k).1.length ≤
        (min fc (w * h - (snake.length : Int))).toNat) ∧
    (∀ (rnd : Nat → Pt) (snake food : List Pt) (k : Nat),
      (placeOneFood rnd snake food k).1.length ≤ food.length + 1 ∧
      (placeOneFood rnd snake food k).2 ≤ k + 1000) ∧
    (∀ (rnd : Nat → Pt) (snake food : List Pt) (k : Nat),
      (∀ j, j < 1000 →
        (occupied (rnd (k + j)) snake || occupied (rnd (k + j)) food) = true) →
      (placeOneFood rnd snake food k).1 = food) ∧
    (placeFood rndRow 3 5 5 [⟨100, 100⟩] 0).1.length =
      (min 3 (5 * 5 - 1) : Int).toNat := by
  refine ⟨?_, ?_, ?_, by decide⟩
  · intro rnd fc w h snake k
    have := placeItems_length rnd snake
      (min fc (w * h - (snake.length : Int))).toNat [] k
    simpa [placeFood] using this
  · intro rnd snake food k
    refine ⟨placeOneFood_length rnd snake food k, ?_⟩
    have := placeAttempts_cursor rnd snake food 1000 k
    rcases hpa : placeAttempts rnd snake food k 1000 with ⟨op, k2⟩
    rw [hpa] at this
    cases op with
    | none => simpa [placeOneFood, hpa] using this
    | some p => simpa [placeOneFood, hpa] using this
  · intro rnd snake food k h
    have hn := placeAttempts_fail rnd snake food 1000 k h
    rcases hpa : placeAttempts rnd snake food k 1000 with ⟨op, k2⟩
    rw [hpa] at hn
    cases op with
    | none => simp [placeOneFood, hpa]
    | some p => simp at hn

/-- C9 witness: with every candidate landing on the snake, the single
placement gives up after its attempt cap and leaves the food set unchanged. -/
theorem placement_attempt_cap_witness :
    (placeOneFood rndZero [⟨0, 0⟩] [] 0).1 = [] :=
  placement_attempt_cap.2.2.1 rndZero [⟨0, 0⟩] [] 0 (fun _ _ => rfl)

/-
The no-reversal invariant (C10).
-/

/-- The invariant: the queued direction is never the reverse of the active
direction. -/
def noReverse (s : GameState) : Prop :=
  s.nextDir ≠ oppositeDir s.dir

theorem noReverse_of_eq {s t : GameState} (h : noReverse s)
    (hd : t.dir = s.dir) (hn : t.nextDir = s.nextDir) : noReverse t := by
  unfold noReverse at *
  rw [hd, hn]
  exact h

theorem resetGame_noReverse (rnd : Nat → Pt) (s : GameState) (k : Nat) :
    noReverse (resetGame rnd s k).1 := by
  unfold noReverse
  simp [resetGame, oppositeDir]

theorem stepGame_noReverse (rnd : Nat → Pt) (s : GameState) (k : Nat) :
    noReverse (stepGame rnd s k).1 := by
  unfold noReverse
  rw [stepGame_dir, stepGame_nextDir]
  cases hnd : s.nextDir <;> decide

theorem handleMenuKey_noReverse (rnd : Nat → Pt) (key : Key) (s : GameState)
    (k : Nat) (h : noReverse s) : noReverse (handleMenuKey rnd key s k).1 := by
  cases key <;> simp only [handleMenuKey] <;>
    try exact noReverse_of_eq h rfl rfl
  split
  · exact resetGame_noReverse rnd _ k
  · split
    · exact noReverse_of_eq h rfl rfl
    · exact noReverse_of_eq h rfl rfl

theorem handleSettingsKey_noReverse (key : Key) (s : GameState) (k : Nat)
    (h : noReverse s) : noReverse (handleSettingsKey key s k).1 := by
  cases key <;> simp only [handleSettingsKey] <;>
    (try split_ifs) <;> exact noReverse_of_eq h rfl rfl

theorem handlePauseKey_noReverse (key : Key) (s : GameState) (k : Nat)
    (h : noReverse s) : noReverse (handlePauseKey key s k).1 := by
  cases key <;> simp only [handlePauseKey] <;>
    (try split_ifs) <;> exact noReverse_of_eq h rfl rfl

theorem handleGameOverKey_noReverse (rnd : Nat → Pt) (key : Key)
    (s : GameState) (k : Nat) (h : noReverse s) :
    noReverse (handleGameOverKey rnd key s k).1 := by
  cases key <;> simp only [handleGameOverKey] <;> (try split_ifs) <;>
    first
      | exact noReverse_of_eq h rfl rfl
      | exact noReverse_of_eq (resetGame_noReverse rnd s k) rfl rfl

theorem handlePlayKey_noReverse (rnd : Nat → Pt) (key : Key) (s : GameState)
    (k : Nat) (h : noReverse s) : noReverse (handlePlayKey rnd key s k).1 := by
  unfold noReverse at *
  cases key <;> cases hst : s.started <;> cases hd : s.dir <;>
    simp_all [handlePlayKey, oppositeDir, resetGame]

theorem handleKeyDown_noReverse (rnd : Nat → Pt) (key : Key) (s : GameState)
    (k : Nat) (h : noReverse s) : noReverse (handleKeyDown rnd key s k).1 := by
  unfold handleKeyDown
  split
  · exact handleMenuKey_noReverse rnd key s k h
  · split
    · exact handleSettingsKey_noReverse key s k h
    · split
      · exact handlePauseKey_noReverse key s k h
      · split
        · exact handleGameOverKey_noReverse rnd key s k h
        · split
          · exact handleGameOverKey_noReverse rnd key s k h
          · exact handlePlayKey_noReverse rnd key s k h

/-- States reachable from a reset by key events, simulation steps, and the
scheduler's inactive-pass prevSnake sync. -/
inductive Reach : GameState → Prop where
  | reset (rnd : Nat → Pt) (s : GameState) (k : Nat) :
      Reach (resetGame rnd s k).1
  | key (rnd : Nat → Pt) (ev : Key) (k : Nat) {s : GameState} :
      Reach s → Reach (handleKeyDown rnd ev s k).1
  | step (rnd : Nat → Pt) (k : Nat) {s : GameState} :
      Reach s → Reach (stepGame rnd s k).1
  | sync {s : GameState} :
      Reach s → Reach { s with prevSnake := s.currSnake }

/-- C10: in every state reachable from a reset through input events and
simulation steps, the pending direction is never the opposite of the active
direction, so the step's unconditional `dir = nextDir` commit can never turn
the snake 180 degrees. -/
theorem no_reverse_invariant (s : GameState) (h : Reach s) :
    s.nextDir ≠ oppositeDir s.dir := by
  induction h with
  | reset rnd s0 k => exact resetGame_noReverse rnd s0 k
  | key rnd ev k hs ih => exact handleKeyDown_noReverse rnd ev _ k ih
  | step rnd k hs ih => exact stepGame_noReverse rnd _ k
  | sync hs ih => exact noReverse_of_eq ih rfl rfl

/-- C10 witness: the state right after the boot reset satisfies the
invariant. -/
theorem no_reverse_invariant_witness :
    ((resetGame rndZero initState 0).1).nextDir ≠
      oppositeDir ((resetGame rndZero initState 0).1).dir :=
  no_reverse_invariant _ (Reach.reset rndZero initState 0)

end Snake
